import Mathlib

/-!
Verification of the connection-negotiation logic of
`aws-iot-greengrass-for-beginners/alert/main.py`.

The file shallowly embeds the repository's glue code: the discovery
fallback loop `discover_gg_host`, the certificate lookup
`find_cert_file` / `arg_check`, the lifecycle callbacks
`on_connection_interupted`, `on_connection_resumed`,
`on_resubscribe_complete`, and the shutdown path `exit_sample` /
`exit_handler`.  The external SDK (discovery wire protocol, MQTT
transport) is abstracted as an oracle `Transport` deciding each
candidate connection attempt; everything the repository itself does
around that oracle is modelled faithfully.
-/

/-- One entry of `gg_core.connectivity` in the discovery response. -/
structure ConnectivityInfo where
  host_address : String
  port : Nat
deriving Repr, DecidableEq

/-- One entry of `gg_group.cores` in the discovery response. -/
structure GGCore where
  thing_arn : String
  connectivity : List ConnectivityInfo
deriving Repr, DecidableEq

/-- One entry of `discover_response.gg_groups`. -/
structure GGGroup where
  certificate_authorities : List String
  cores : List GGCore
deriving Repr, DecidableEq

/-- The discovery response consumed by `discover_gg_host` (line 121). -/
structure DiscoverResponse where
  gg_groups : List GGGroup
deriving Repr, DecidableEq

/-- A live MQTT session as handed back by the transport: we record the
data of the `mtls_from_path` call that produced it. -/
structure Session where
  endpoint : String
  port : Nat
  ca : String
deriving Repr, DecidableEq

/-- Oracle for the external SDK: given the group CA bytes, the host
address and the port of one candidate, the transport either yields a
live session (`connection.connect()` succeeds, line 144-145) or raises
(any exception, caught at line 150). -/
abbrev Transport := String → String → Nat → Except String Session

/-- One candidate endpoint: the enclosing group, the enclosing core and
the connectivity entry, exactly the data in scope in the loop body. -/
abbrev Candidate := GGGroup × GGCore × ConnectivityInfo

/-- The body of the `try` block at lines 124-148 for one candidate.
`gg_group.certificate_authorities[0]` (line 136) raises `IndexError`
when the list is empty; that access sits inside the `try`, before the
transport is invoked.  Otherwise the transport decides the attempt. -/
def attemptCandidate (transport : Transport) (c : Candidate) : Except String Session :=
  match c.1.certificate_authorities with
  | [] => .error "IndexError: list index out of range"
  | ca :: _ => transport ca c.2.2.host_address c.2.2.port

/-- Observable trace of the loop: candidates attempted (the
`'Trying core ...'` print, line 125) in order, and the failure reasons
recorded (the `'Connection failed with exception ...'` print, line 151)
in order. -/
structure RunState where
  attempted : List Candidate
  failures : List String
deriving Repr, DecidableEq

/-- Innermost loop `for connectivity_info in gg_core.connectivity`
(line 123): attempt each entry, return the connection on the first
success, record the failure and continue otherwise. -/
def runConnList (transport : Transport) (g : GGGroup) (core : GGCore) :
    List ConnectivityInfo → RunState → RunState × Option Session
  | [], st => (st, none)
  | ci :: rest, st =>
    match attemptCandidate transport (g, core, ci) with
    | .ok s => (RunState.mk (st.attempted ++ [(g, core, ci)]) st.failures, some s)
    | .error e =>
      runConnList transport g core rest
        (RunState.mk (st.attempted ++ [(g, core, ci)]) (st.failures ++ [e]))

/-- Middle loop `for gg_core in gg_group.cores` (line 122). -/
def runCoreList (transport : Transport) (g : GGGroup) :
    List GGCore → RunState → RunState × Option Session
  | [], st => (st, none)
  | core :: rest, st =>
    match runConnList transport g core core.connectivity st with
    | (st2, some s) => (st2, some s)
    | (st2, none) => runCoreList transport g rest st2

/-- Outer loop `for gg_group in discover_response.gg_groups`
(line 121). -/
def runGroupList (transport : Transport) :
    List GGGroup → RunState → RunState × Option Session
  | [], st => (st, none)
  | g :: rest, st =>
    match runCoreList transport g g.cores st with
    | (st2, some s) => (st2, some s)
    | (st2, none) => runGroupList transport rest st2

/-- The fallback loop of `discover_gg_host` (lines 121-154).  A `some`
session is the `return connection` at line 148; `none` is the
`sys.exit('All connection attempts failed')` at line 154, which
terminates the process with a nonzero status. -/
def discover_gg_host (transport : Transport) (resp : DiscoverResponse) :
    RunState × Option Session :=
  runGroupList transport resp.gg_groups (RunState.mk [] [])

/-- Exit status of the process after `discover_gg_host`: `none` when a
connection was returned (the program keeps running), `some 1` for the
`sys.exit` with a message, which exits with status 1. -/
def processExitCode : RunState × Option Session → Option Nat
  | (_, some _) => none
  | (_, none) => some 1

/-- Candidates contributed by one core, in connectivity-info order. -/
def flattenCore (g : GGGroup) (core : GGCore) : List Candidate :=
  core.connectivity.map (fun ci => (g, core, ci))

/-- Candidates contributed by a list of cores, in core order. -/
def flattenCores (g : GGGroup) : List GGCore → List Candidate
  | [] => []
  | core :: rest => flattenCore g core ++ flattenCores g rest

/-- Candidates contributed by a list of groups, in group order. -/
def flattenGroups : List GGGroup → List Candidate
  | [] => []
  | g :: rest => flattenCores g g.cores ++ flattenGroups rest

/-- The full candidate sequence of a discovery response, in the order
the nested loops visit it: group order, then core order, then
connectivity-info order. -/
def flatten (resp : DiscoverResponse) : List Candidate :=
  flattenGroups resp.gg_groups

/-- Reference linear run over an already-flattened candidate list. -/
def runFlat (transport : Transport) : List Candidate → RunState → RunState × Option Session
  | [], st => (st, none)
  | c :: rest, st =>
    match attemptCandidate transport c with
    | .ok s => (RunState.mk (st.attempted ++ [c]) st.failures, some s)
    | .error e =>
      runFlat transport rest (RunState.mk (st.attempted ++ [c]) (st.failures ++ [e]))

theorem runFlat_append_ok (transport : Transport) (xs ys : List Candidate)
    (st st1 : RunState) (s : Session) (h : runFlat transport xs st = (st1, some s)) :
    runFlat transport (xs ++ ys) st = (st1, some s) := by
  induction xs generalizing st with
  | nil => simp [runFlat] at h
  | cons c rest ih =>
    simp only [List.cons_append, runFlat] at h ⊢
    cases hc : attemptCandidate transport c with
    | ok s2 => rw [hc] at h; simpa [hc] using h
    | error e => rw [hc] at h; exact ih _ h

theorem runFlat_append_none (transport : Transport) (xs ys : List Candidate)
    (st st1 : RunState) (h : runFlat transport xs st = (st1, none)) :
    runFlat transport (xs ++ ys) st = runFlat transport ys st1 := by
  induction xs generalizing st with
  | nil =>
    simp only [runFlat] at h
    cases h
    simp [runFlat]
  | cons c rest ih =>
    simp only [List.cons_append, runFlat] at h ⊢
    cases hc : attemptCandidate transport c with
    | ok s2 => rw [hc] at h; simp at h
    | error e => rw [hc] at h; exact ih _ h

theorem runConnList_eq_runFlat (transport : Transport) (g : GGGroup) (core : GGCore)
    (cis : List ConnectivityInfo) (st : RunState) :
    runConnList transport g core cis st =
      runFlat transport (cis.map (fun ci => (g, core, ci))) st := by
  induction cis generalizing st with
  | nil => simp [runConnList, runFlat]
  | cons ci rest ih =>
    simp only [List.map_cons, runConnList, runFlat]
    cases hc : attemptCandidate transport (g, core, ci) with
    | ok s => simp [hc]
    | error e => simp [hc, ih]

theorem runCoreList_eq_runFlat (transport : Transport) (g : GGGroup)
    (cores : List GGCore) (st : RunState) :
    runCoreList transport g cores st = runFlat transport (flattenCores g cores) st := by
  induction cores generalizing st with
  | nil => simp [runCoreList, flattenCores, runFlat]
  | cons core rest ih =>
    simp only [runCoreList, flattenCores, flattenCore]
    rcases hrun : runConnList transport g core core.connectivity st with ⟨st2, osess⟩
    rw [runConnList_eq_runFlat] at hrun
    cases osess with
    | some s => exact (runFlat_append_ok transport _ _ st st2 s hrun).symm
    | none => rw [runFlat_append_none transport _ _ st st2 hrun]; exact ih st2

theorem runGroupList_eq_runFlat (transport : Transport)
    (gs : List GGGroup) (st : RunState) :
    runGroupList transport gs st = runFlat transport (flattenGroups gs) st := by
  induction gs generalizing st with
  | nil => simp [runGroupList, flattenGroups, runFlat]
  | cons g rest ih =>
    simp only [runGroupList, flattenGroups]
    rcases hrun : runCoreList transport g g.cores st with ⟨st2, osess⟩
    rw [runCoreList_eq_runFlat] at hrun
    cases osess with
    | some s => exact (runFlat_append_ok transport _ _ st st2 s hrun).symm
    | none => rw [runFlat_append_none transport _ _ st st2 hrun]; exact ih st2

theorem discover_gg_host_eq_runFlat (transport : Transport) (resp : DiscoverResponse) :
    discover_gg_host transport resp =
      runFlat transport (flatten resp) (RunState.mk [] []) :=
  runGroupList_eq_runFlat transport resp.gg_groups _

theorem runFlat_first_success (transport : Transport)
    (pre post : List Candidate) (c : Candidate) (s : Session) (st : RunState)
    (hpre : ∀ c' ∈ pre, ∃ e, attemptCandidate transport c' = .error e)
    (hc : attemptCandidate transport c = .ok s) :
    ∃ fs, runFlat transport (pre ++ c :: post) st =
        (RunState.mk (st.attempted ++ (pre ++ [c])) (st.failures ++ fs), some s) ∧
      fs.length = pre.length := by
  induction pre generalizing st with
  | nil =>
    refine ⟨[], ?_, rfl⟩
    simp only [List.nil_append, runFlat, hc, List.append_nil]
  | cons c' rest ih =>
    obtain ⟨e, he⟩ := hpre c' (List.mem_cons_self c' rest)
    obtain ⟨fs, hrun, hlen⟩ :=
      ih (RunState.mk (st.attempted ++ [c']) (st.failures ++ [e]))
        (fun x hx => hpre x (List.mem_cons_of_mem c' hx))
    refine ⟨e :: fs, ?_, by simp [hlen]⟩
    simp only [List.cons_append, runFlat, he, List.append_eq]
    rw [hrun]
    simp [List.append_assoc]

theorem runFlat_all_fail (transport : Transport) (cs : List Candidate) (st : RunState)
    (h : ∀ c ∈ cs, ∃ e, attemptCandidate transport c = .error e) :
    ∃ fs, runFlat transport cs st =
        (RunState.mk (st.attempted ++ cs) (st.failures ++ fs), none) ∧
      fs.length = cs.length := by
  induction cs generalizing st with
  | nil => exact ⟨[], by simp [runFlat], rfl⟩
  | cons c rest ih =>
    obtain ⟨e, he⟩ := h c (List.mem_cons_self c rest)
    obtain ⟨fs, hrun, hlen⟩ :=
      ih (RunState.mk (st.attempted ++ [c]) (st.failures ++ [e]))
        (fun x hx => h x (List.mem_cons_of_mem c hx))
    refine ⟨e :: fs, ?_, by simp [hlen]⟩
    simp only [runFlat, he, List.append_eq]
    rw [hrun]
    simp [List.append_assoc]

theorem runFlat_const_fail (transport : Transport) (cs : List Candidate) (st : RunState)
    (m : String) (h : ∀ c ∈ cs, attemptCandidate transport c = .error m) :
    runFlat transport cs st =
      (RunState.mk (st.attempted ++ cs) (st.failures ++ cs.map (fun _ => m)), none) := by
  induction cs generalizing st with
  | nil => simp [runFlat]
  | cons c rest ih =>
    have he := h c (List.mem_cons_self c rest)
    simp only [runFlat, he, List.append_eq]
    rw [ih (RunState.mk (st.attempted ++ [c]) (st.failures ++ [m])) (fun x hx => h x (List.mem_cons_of_mem c hx))]
    simp [List.append_assoc]

/-- C1: when the candidate at position `k` (the one after `pre`,
`pre.length = k`) is the first whose attempt succeeds, `discover_gg_host`
attempts exactly the candidates up to and including it, in the supplied
group/core/connectivity order, records exactly `k` failures, and returns
the session produced by that candidate's attempt; no later candidate is
attempted. -/
theorem c1_first_success_wins (transport : Transport) (resp : DiscoverResponse)
    (pre post : List Candidate) (c : Candidate) (s : Session)
    (hsplit : flatten resp = pre ++ c :: post)
    (hpre : ∀ c' ∈ pre, ∃ e, attemptCandidate transport c' = .error e)
    (hc : attemptCandidate transport c = .ok s) :
    ∃ st, discover_gg_host transport resp = (st, some s) ∧
      st.attempted = pre ++ [c] ∧
      st.failures.length = pre.length := by
  obtain ⟨fs, hrun, hlen⟩ :=
    runFlat_first_success transport pre post c s (RunState.mk [] []) hpre hc
  refine ⟨RunState.mk (pre ++ [c]) fs, ?_, rfl, hlen⟩
  rw [discover_gg_host_eq_runFlat, hsplit, hrun]
  simp

/-- Concrete instance for C1: two candidates, the first refused, the
second accepted; the run attempts both in order, records one failure and
returns the session of the second candidate. -/
def transportW : Transport := fun ca host port =>
  if host = "h2" then .ok (Session.mk host port ca) else .error "refused"

def coreW : GGCore :=
  GGCore.mk "core-arn" [ConnectivityInfo.mk "h1" 1, ConnectivityInfo.mk "h2" 2]

def groupW : GGGroup := GGGroup.mk ["CA"] [coreW]

def respW : DiscoverResponse := DiscoverResponse.mk [groupW]

def candW1 : Candidate := (groupW, coreW, ConnectivityInfo.mk "h1" 1)

def candW2 : Candidate := (groupW, coreW, ConnectivityInfo.mk "h2" 2)

theorem c1_first_success_wins_witness :
    ∃ st, discover_gg_host transportW respW = (st, some (Session.mk "h2" 2 "CA")) ∧
      st.attempted = [candW1] ++ [candW2] ∧
      st.failures.length = [candW1].length :=
  c1_first_success_wins transportW respW [candW1] [] candW2 (Session.mk "h2" 2 "CA")
    rfl
    (by
      intro c' hc'
      simp only [List.mem_singleton] at hc'
      subst hc'
      exact ⟨"refused", rfl⟩)
    rfl

/-- C2: when every candidate's attempt fails, `discover_gg_host` returns
no session (it reaches `sys.exit('All connection attempts failed')`,
terminating the process with status 1) and the recorded per-candidate
failure list has exactly one entry per candidate. -/
theorem c2_exhausted_candidates (transport : Transport) (resp : DiscoverResponse)
    (h : ∀ c ∈ flatten resp, ∃ e, attemptCandidate transport c = .error e) :
    ∃ st, discover_gg_host transport resp = (st, none) ∧
      st.attempted = flatten resp ∧
      st.failures.length = (flatten resp).length ∧
      processExitCode (discover_gg_host transport resp) = some 1 := by
  obtain ⟨fs, hrun, hlen⟩ := runFlat_all_fail transport (flatten resp) (RunState.mk [] []) h
  rw [discover_gg_host_eq_runFlat]
  refine ⟨RunState.mk (flatten resp) fs, ?_, rfl, hlen, ?_⟩
  · rw [hrun]; simp
  · rw [hrun]; simp [processExitCode]

def transportFailW : Transport := fun _ _ _ => .error "connection refused"

theorem c2_exhausted_candidates_witness :
    ∃ st, discover_gg_host transportFailW respW = (st, none) ∧
      st.attempted = flatten respW ∧
      st.failures.length = (flatten respW).length ∧
      processExitCode (discover_gg_host transportFailW respW) = some 1 :=
  c2_exhausted_candidates transportFailW respW (by
    rintro ⟨g, core, ci⟩ hc
    cases hca : g.certificate_authorities with
    | nil =>
      exact ⟨"IndexError: list index out of range", by simp [attemptCandidate, hca]⟩
    | cons a t =>
      exact ⟨"connection refused", by simp [attemptCandidate, hca, transportFailW]⟩)

/-- C3: a discovery response whose candidate sequence is empty (no
groups, no cores, or no connectivity entries) makes zero attempts and
reaches `sys.exit` immediately with an empty failure list. -/
theorem c3_empty_candidates (transport : Transport) (resp : DiscoverResponse)
    (h : flatten resp = []) :
    discover_gg_host transport resp = (RunState.mk [] [], none) ∧
    processExitCode (discover_gg_host transport resp) = some 1 := by
  rw [discover_gg_host_eq_runFlat, h]
  exact ⟨rfl, rfl⟩

theorem c3_empty_candidates_witness :
    discover_gg_host transportFailW (DiscoverResponse.mk []) = (RunState.mk [] [], none) ∧
    processExitCode (discover_gg_host transportFailW (DiscoverResponse.mk [])) = some 1 :=
  c3_empty_candidates transportFailW (DiscoverResponse.mk []) rfl

theorem mem_flattenCores_fst (g : GGGroup) (cores : List GGCore) (c : Candidate)
    (hc : c ∈ flattenCores g cores) : c.1 = g := by
  induction cores with
  | nil => simp [flattenCores] at hc
  | cons core rest ih =>
    simp only [flattenCores, List.mem_append] at hc
    rcases hc with hc | hc
    · simp only [flattenCore, List.mem_map] at hc
      obtain ⟨ci, _, rfl⟩ := hc
      rfl
    · exact ih hc

/-- C10: in a group whose `certificate_authorities` list is empty, every
candidate attempt fails inside the `try` block with the `IndexError`
raised by `certificate_authorities[0]` (line 136) — the exception is
caught by the handler at line 150, not propagated — and the loop
continues with the remaining groups, carrying one recorded failure per
candidate of the defective group. -/
theorem c10_empty_trust_anchors (transport : Transport) (g : GGGroup)
    (gs : List GGGroup) (st : RunState) (hg : g.certificate_authorities = []) :
    (∀ core ∈ g.cores, ∀ ci ∈ core.connectivity,
        attemptCandidate transport (g, core, ci) =
          .error "IndexError: list index out of range") ∧
    runGroupList transport (g :: gs) st =
      runGroupList transport gs
        (RunState.mk (st.attempted ++ flattenCores g g.cores)
          (st.failures ++
            (flattenCores g g.cores).map (fun _ => "IndexError: list index out of range"))) := by
  refine ⟨fun core _ ci _ => by simp [attemptCandidate, hg], ?_⟩
  have hall : ∀ c ∈ flattenCores g g.cores,
      attemptCandidate transport c = .error "IndexError: list index out of range" := by
    intro c hc
    have h1 := mem_flattenCores_fst g g.cores c hc
    rcases c with ⟨g2, core, ci⟩
    simp only at h1
    subst h1
    simp [attemptCandidate, hg]
  have hrun := runFlat_const_fail transport (flattenCores g g.cores) st
    "IndexError: list index out of range" hall
  simp only [runGroupList, runCoreList_eq_runFlat, hrun]

def groupC10 : GGGroup := GGGroup.mk [] [GGCore.mk "arn0" [ConnectivityInfo.mk "h0" 1]]

theorem c10_empty_trust_anchors_witness :
    (∀ core ∈ groupC10.cores, ∀ ci ∈ core.connectivity,
        attemptCandidate transportFailW (groupC10, core, ci) =
          .error "IndexError: list index out of range") ∧
    runGroupList transportFailW [groupC10] (RunState.mk [] []) =
      runGroupList transportFailW []
        (RunState.mk ([] ++ flattenCores groupC10 groupC10.cores)
          ([] ++
            (flattenCores groupC10 groupC10.cores).map
              (fun _ => "IndexError: list index out of range"))) :=
  c10_empty_trust_anchors transportFailW groupC10 [] (RunState.mk [] []) rfl

/-- The CONNACK return code delivered to `on_connection_resumed`
(`awscrt.mqtt.ConnectReturnCode`). -/
inductive ConnectReturnCode
  | ACCEPTED
  | UNACCEPTABLE_PROTOCOL_VERSION
  | IDENTIFIER_REJECTED
  | SERVER_UNAVAILABLE
  | BAD_USERNAME_OR_PASSWORD
  | NOT_AUTHORIZED
deriving Repr, DecidableEq

/-- The callback `on_connection_resumed` (lines 162-174).  `topics` is
the connection's set of previously subscribed topics.  Modelled from the
spec: the SDK call `connection.resubscribe_existing_topics()` (line 170,
implemented in the vendored SDK, not in this repository) re-issues one
subscription per previously held topic.  The result is the list of
re-subscription calls issued and the subscription set afterwards; the
handler itself never unsubscribes anything.  The guard at line 168 only
resubscribes when `return_code == ConnectReturnCode.ACCEPTED and not
session_present`. -/
def on_connection_resumed (topics : List String) (return_code : ConnectReturnCode)
    (session_present : Bool) : List String × List String :=
  if return_code = ConnectReturnCode.ACCEPTED ∧ session_present = false then
    (topics, topics)
  else
    ([], topics)

/-- The callback `on_resubscribe_complete` (lines 177-183), counting how
many times `sys.exit` runs: the loop over
`resubscribe_results['topics']` exits at the first entry whose granted
QoS is `None`, so the count is 0 or 1.  A pair is `(topic, granted
QoS)`. -/
def on_resubscribe_complete : List (String × Option Nat) → Nat
  | [] => 0
  | (_, none) :: _ => 1
  | (_, some _) :: rest => on_resubscribe_complete rest

/-- C4: a resumed notification with `session_present = true` issues no
re-subscription call (the guard `return_code == ACCEPTED and not
session_present` is false) and leaves the subscription set unchanged,
whatever the return code. -/
theorem c4_session_persisted_no_resubscribe (topics : List String)
    (return_code : ConnectReturnCode) :
    on_connection_resumed topics return_code true = ([], topics) := by
  simp [on_connection_resumed]

/-- C5 counterexample: a resumed notification with
`session_present = false` but a non-ACCEPTED return code issues zero
re-subscription calls, not one per prior subscription: the guard at
line 168 also requires `return_code == ConnectReturnCode.ACCEPTED`. -/
theorem c5_counterexample :
    ¬ (on_connection_resumed ["alert/#"] ConnectReturnCode.SERVER_UNAVAILABLE
        false).1.length = 1 := by
  simp [on_connection_resumed]

theorem on_resubscribe_complete_rejected (results : List (String × Option Nat))
    (h : ∃ p ∈ results, p.2 = none) : on_resubscribe_complete results = 1 := by
  induction results with
  | nil => simp at h
  | cons p rest ih =>
    rcases p with ⟨topic, qos⟩
    cases qos with
    | none => rfl
    | some q =>
      simp only [on_resubscribe_complete]
      apply ih
      rcases h with ⟨p2, hp2, hq2⟩
      rcases List.mem_cons.mp hp2 with h1 | h1
      · rw [h1] at hq2; simp at hq2
      · exact ⟨p2, h1, hq2⟩

/-- C5 amended: for a resumed notification carrying an ACCEPTED return
code and `session_present = false` with a prior subscription set of size
M, exactly M re-subscription calls are issued; and whenever some
re-subscription acknowledgment reports no granted QoS, the
process-level fatal exit (`sys.exit` at line 183) runs exactly once. -/
theorem c5_amended_resubscribe (topics : List String)
    (results : List (String × Option Nat)) (h : ∃ p ∈ results, p.2 = none) :
    (on_connection_resumed topics ConnectReturnCode.ACCEPTED false).1.length =
      topics.length ∧
    on_resubscribe_complete results = 1 :=
  ⟨by simp [on_connection_resumed], on_resubscribe_complete_rejected results h⟩

theorem c5_amended_resubscribe_witness :
    (on_connection_resumed ["alert/#", "status/#"] ConnectReturnCode.ACCEPTED
        false).1.length = (["alert/#", "status/#"] : List String).length ∧
    on_resubscribe_complete [("alert/#", some 0), ("status/#", none)] = 1 :=
  c5_amended_resubscribe ["alert/#", "status/#"]
    [("alert/#", some 0), ("status/#", none)]
    ⟨("status/#", none), by simp, rfl⟩

/-- Substring test `cert_prefix in file` of line 53 (Python `in` on
strings), on the underlying character lists. -/
def charsContain (needle : List Char) : List Char → Bool
  | [] => needle.isEmpty
  | c :: t => needle.isPrefixOf (c :: t) || charsContain needle t

/-- Python `needle in hay` for strings. -/
def strContains (hay needle : String) : Bool :=
  charsContain needle.toList hay.toList

/-- The lookup `find_cert_file` (lines 37-56): scan the file names found
under the certificate directory and return the path of the first file
whose name contains `cert_prefix`; raise `'%s not found.' % cert_prefix`
otherwise (line 56). -/
def find_cert_file (certRoot : String) (files : List String)
    ( cert_prefix : String) : Except String String :=
  match files.find? (fun f => strContains f cert_prefix) with
  | some f => .ok (certRoot ++ "/" ++ f)
  | none => .error ( cert_prefix ++ " not found.")

/-- The three lookups of `arg_check` (lines 92-94), in program order:
`private.key`, then `cert.pem`, then `AmazonRootCA1.pem`; the first
failing lookup raises and aborts startup. -/
def trustStoreLookup (certRoot : String) (files : List String) :
    Except String (String × String × String) :=
  match find_cert_file certRoot files "private.key" with
  | .error e => .error e
  | .ok pk =>
    match find_cert_file certRoot files "cert.pem" with
    | .error e => .error e
    | .ok cert =>
      match find_cert_file certRoot files "AmazonRootCA1.pem" with
      | .error e => .error e
      | .ok ca => .ok (pk, cert, ca)

/-- Startup outcome of `device_main` (lines 190-198) up to the point of
first network activity: `arg_check` (and with it the trust-store
lookups) runs before `discover_gg_host`, so `networkAttempted` records
whether control ever reaches the discovery call. -/
structure StartupResult where
  networkAttempted : Bool
  trustStore : Except String (String × String × String)
deriving Repr

def startup (certRoot : String) (files : List String) : StartupResult :=
  match trustStoreLookup certRoot files with
  | .error e => StartupResult.mk false (.error e)
  | .ok paths => StartupResult.mk true (.ok paths)

/-- C6: the trust-store lookup locates, for each of the three required
substrings (`private.key`, `cert.pem`, the root-CA marker
`AmazonRootCA1.pem`), exactly one file of the certificate directory —
the first whose name contains it — and returns its path; and whenever
one of the three substrings matches no file, startup fails with the
lookup's exception before any network activity occurs. -/
theorem c6_trust_store_lookup (certRoot : String) (files : List String) :
    (∀ pk cert ca, trustStoreLookup certRoot files = .ok (pk, cert, ca) →
      (∃ f ∈ files, strContains f "private.key" = true ∧ pk = certRoot ++ "/" ++ f) ∧
      (∃ f ∈ files, strContains f "cert.pem" = true ∧ cert = certRoot ++ "/" ++ f) ∧
      (∃ f ∈ files, strContains f "AmazonRootCA1.pem" = true ∧
        ca = certRoot ++ "/" ++ f)) ∧
    ((∀ f ∈ files, strContains f "private.key" = false) ∨
     (∀ f ∈ files, strContains f "cert.pem" = false) ∨
     (∀ f ∈ files, strContains f "AmazonRootCA1.pem" = false) →
      (startup certRoot files).networkAttempted = false ∧
      ∃ e, (startup certRoot files).trustStore = .error e) := by
  constructor
  · intro pk cert ca hok
    unfold trustStoreLookup at hok
    cases h1 : files.find? (fun f => strContains f "private.key") with
    | none => simp [find_cert_file, h1] at hok
    | some f1 =>
      cases h2 : files.find? (fun f => strContains f "cert.pem") with
      | none => simp [find_cert_file, h1, h2] at hok
      | some f2 =>
        cases h3 : files.find? (fun f => strContains f "AmazonRootCA1.pem") with
        | none => simp [find_cert_file, h1, h2, h3] at hok
        | some f3 =>
          simp only [find_cert_file, h1, h2, h3, Except.ok.injEq, Prod.mk.injEq] at hok
          obtain ⟨hpk, hcert, hca⟩ := hok
          exact ⟨⟨f1, List.mem_of_find?_eq_some h1, by simpa using List.find?_some h1,
              hpk.symm⟩,
            ⟨f2, List.mem_of_find?_eq_some h2, by simpa using List.find?_some h2,
              hcert.symm⟩,
            ⟨f3, List.mem_of_find?_eq_some h3, by simpa using List.find?_some h3,
              hca.symm⟩⟩
  · intro h
    have hfail : ∃ e, trustStoreLookup certRoot files = .error e := by
      rcases h with h | h | h
      · have : files.find? (fun f => strContains f "private.key") = none :=
          List.find?_eq_none.mpr (fun f hf => by simp [h f hf])
        exact ⟨"private.key not found.", by simp [trustStoreLookup, find_cert_file, this]⟩
      · have : files.find? (fun f => strContains f "cert.pem") = none :=
          List.find?_eq_none.mpr (fun f hf => by simp [h f hf])
        cases h1 : files.find? (fun f => strContains f "private.key") with
        | none =>
          exact ⟨"private.key not found.", by simp [trustStoreLookup, find_cert_file, h1]⟩
        | some f1 =>
          exact ⟨"cert.pem not found.", by simp [trustStoreLookup, find_cert_file, h1, this]⟩
      · have h3 : files.find? (fun f => strContains f "AmazonRootCA1.pem") = none :=
          List.find?_eq_none.mpr (fun f hf => by simp [h f hf])
        cases h1 : files.find? (fun f => strContains f "private.key") with
        | none =>
          exact ⟨"private.key not found.", by simp [trustStoreLookup, find_cert_file, h1]⟩
        | some f1 =>
          cases h2 : files.find? (fun f => strContains f "cert.pem") with
          | none =>
            exact ⟨"cert.pem not found.", by simp [trustStoreLookup, find_cert_file, h1, h2]⟩
          | some f2 =>
            exact ⟨"AmazonRootCA1.pem not found.",
              by simp [trustStoreLookup, find_cert_file, h1, h2, h3]⟩
    obtain ⟨e, he⟩ := hfail
    exact ⟨by simp [startup, he], e, by simp [startup, he]⟩

theorem c6_trust_store_lookup_witness :
    (startup "certs" ["device.cert.pem", "device.private.key"]).networkAttempted =
      false ∧
    ∃ e, (startup "certs" ["device.cert.pem", "device.private.key"]).trustStore =
      .error e :=
  (c6_trust_store_lookup "certs" ["device.cert.pem", "device.private.key"]).2
    (Or.inr (Or.inr (by decide)))

/-- What the shutdown path does to the process. -/
inductive ShutdownOutcome
  | exitZero
  | attributeError
deriving Repr, DecidableEq

/-- Observable effect of `exit_sample` / `exit_handler`. -/
structure ShutdownResult where
  disconnectCalled : Bool
  outcome : ShutdownOutcome
deriving Repr, DecidableEq

/-- The cleanup of `exit_sample` (lines 230-233).  The guard is
`if not mqtt_connection:`: a `None` connection is falsy, so the branch
calling `mqtt_connection.disconnect()` runs exactly when the connection
is `None`, where the attribute access raises `AttributeError` and
`sys.exit(0)` is never reached; with a live connection object (truthy)
the branch is skipped, no disconnect is issued, and `sys.exit(0)`
runs. -/
def exit_sample (mqtt_connection : Option Session) : ShutdownResult :=
  if mqtt_connection.isNone then
    ShutdownResult.mk false ShutdownOutcome.attributeError
  else
    ShutdownResult.mk false ShutdownOutcome.exitZero

/-- The SIGINT handler `exit_handler` (lines 236-240) forwards to
`exit_sample`. -/
def exit_handler (mqtt_connection : Option Session) : ShutdownResult :=
  exit_sample mqtt_connection

/-- C7, behavior of the code at the failing inputs: on SIGINT with a
live session, the handler never calls `disconnect` (the guard
`if not mqtt_connection` is false) although it does exit with status 0;
and with no live session it evaluates `None.disconnect()`, raising
`AttributeError` instead of exiting with status 0.  This contradicts the
claimed orderly shutdown (disconnect any live session, then exit 0; exit
0 without disconnecting when there is none), which the inverted guard
was evidently meant to implement. -/
theorem c7_exit_sample_inverted_guard :
    (exit_handler (some (Session.mk "host" 8883 "CA"))).disconnectCalled = false ∧
    (exit_handler (some (Session.mk "host" 8883 "CA"))).outcome =
      ShutdownOutcome.exitZero ∧
    (exit_handler none).outcome = ShutdownOutcome.attributeError := by
  refine ⟨rfl, rfl, rfl⟩

/-- Evaluation of `'connection interrupted with error {}' % error`
(line 158).  The format string contains no `%` conversion specifier, so
Python's `%` operator on it with a non-mapping right operand raises
`TypeError: not all arguments converted during string formatting`; with
a mapping it would return the string unchanged.  Only these two cases
arise for this literal format string, which contains no `%`. -/
def interruptedLogLine (errorIsMapping : Bool) : Except String String :=
  if errorIsMapping then .ok "connection interrupted with error {}"
  else .error "TypeError: not all arguments converted during string formatting"

/-- The callback `on_connection_interupted` (lines 157-158): the
argument expression of `logger.info` is evaluated first; on success the
single log line is emitted.  The error delivered by the transport is an
exception object, never a mapping. -/
def on_connection_interupted (errorIsMapping : Bool) : Except String (List String) :=
  match interruptedLogLine errorIsMapping with
  | .error e => .error e
  | .ok line => .ok [line]

/-- C9, behavior of the code at the failing input: invoked with an
exception object (not a mapping), the interruption handler raises
`TypeError` while building the log line and logs nothing, instead of
logging the event and returning. -/
theorem c9_interrupted_handler_raises :
    on_connection_interupted false =
      .error "TypeError: not all arguments converted during string formatting" :=
  rfl
